import Mathlib

/-!
Verification of the booking validator/pricer and the sentiment classifier of
`hotel.py` (Smart Hotel Management System). The definitions below are a
shallow embedding of the Python source: pure functions become Lean functions,
the module-level sentiment mode and the current date become explicit
parameters, and Python exceptions become `Option`. Digits and whitespace are
modelled at the ASCII level (the inputs exercised by the specification are
ASCII).
-/

namespace Hotel

/-- Calendar dates as plain year/month/day records (`datetime.date` values). -/
structure Date where
  year : Nat
  month : Nat
  day : Nat
deriving DecidableEq

/-- Characters stripped by Python `str.strip()` (ASCII whitespace). -/
def pyIsSpace (c : Char) : Bool :=
  c == ' ' || c == '\t' || c == '\n' || c == '\r' || c == '\x0B' || c == '\x0C'

/-- Python `str.strip()` on a character list. -/
def pyStripList (l : List Char) : List Char :=
  ((l.dropWhile pyIsSpace).reverse.dropWhile pyIsSpace).reverse

/-- Python `str.strip()`. -/
def pyStrip (s : String) : String :=
  String.mk (pyStripList s.data)

/-- Numeric value of a list of ASCII digit characters. -/
def natOfDigits (l : List Char) : Nat :=
  l.foldl (fun a c => a * 10 + (c.toNat - 48)) 0

/-- Every character is an ASCII digit. -/
def allDigits (l : List Char) : Bool :=
  l.all Char.isDigit

/-- Split a character list at `'-'` separators (Python `str.split('-')`). -/
def splitHyphen : List Char → List (List Char)
  | [] => [[]]
  | c :: t =>
    if c = '-' then [] :: splitHyphen t
    else
      match splitHyphen t with
      | [] => [[c]]
      | h :: r => (c :: h) :: r

/-- Gregorian leap-year rule used by `datetime`. -/
def isLeap (y : Nat) : Bool :=
  (y % 4 == 0 && y % 100 != 0) || y % 400 == 0

/-- Length of a month in the given year. -/
def daysInMonth (y m : Nat) : Nat :=
  if m = 2 then (if isLeap y then 29 else 28)
  else if m = 4 ∨ m = 6 ∨ m = 9 ∨ m = 11 then 30
  else 31

/--
Model of `datetime.strptime(s, "%d-%m-%Y")` (as used by `is_valid_date`,
`validate_inputs` and `calculate_price`). CPython matches `%d` against a one-
or two-digit number in 1..31, `%m` against 1..12, `%Y` against exactly four
digits, requires the whole string to be consumed, and then the `datetime`
constructor checks the day against the month length and requires year ≥ 1.
Because all three fields are digit-only, matching that regex is equivalent to
splitting the string at the two hyphens.
-/
def parseDate (s : String) : Option Date :=
  match splitHyphen s.data with
  | [ds, ms, ys] =>
    if allDigits ds = true ∧ 1 ≤ ds.length ∧ ds.length ≤ 2 ∧
       allDigits ms = true ∧ 1 ≤ ms.length ∧ ms.length ≤ 2 ∧
       allDigits ys = true ∧ ys.length = 4 then
      let d := natOfDigits ds
      let m := natOfDigits ms
      let y := natOfDigits ys
      if 1 ≤ d ∧ d ≤ 31 ∧ 1 ≤ m ∧ m ≤ 12 ∧ 1 ≤ y ∧ d ≤ daysInMonth y m then
        some ⟨y, m, d⟩
      else none
    else none
  | _ => none

/-- Days before the first of the given month, within one year. -/
def daysBeforeMonth (m : Nat) (leap : Bool) : Nat :=
  (match m with
   | 1 => 0 | 2 => 31 | 3 => 59 | 4 => 90 | 5 => 120 | 6 => 151
   | 7 => 181 | 8 => 212 | 9 => 243 | 10 => 273 | 11 => 304 | _ => 334)
  + (if leap ∧ 3 ≤ m then 1 else 0)

/--
Proleptic Gregorian ordinal of a date (`datetime.date.toordinal`); the
difference of two ordinals is Python's `(d2 - d1).days` for midnight
datetimes.
-/
def toOrdinal (dt : Date) : Int :=
  let y : Int := (dt.year : Int) - 1
  365 * y + y / 4 - y / 100 + y / 400
    + (daysBeforeMonth dt.month (isLeap dt.year) : Int) + (dt.day : Int)

/-- `is_valid_date` from the source: does the string parse as `DD-MM-YYYY`. -/
def is_valid_date (s : String) : Bool :=
  (parseDate s).isSome

/-- The `ROOM_TYPES` constant. -/
def ROOM_TYPES : List String :=
  ["Single", "Double", "Luxury"]

/-- The `ROOM_PRICES` dictionary. -/
def ROOM_PRICES : List (String × Int) :=
  [("Single", 2000), ("Double", 5000), ("Luxury", 10000)]

/-- Python `dict.get(key, default)` on an association list. -/
def dictGetD : List (String × Int) → String → Int → Int
  | [], _, dflt => dflt
  | (k, v) :: t, key, dflt => if k = key then v else dictGetD t key dflt

/--
`calculate_price` from the source: re-parse both dates, count the whole days
between them, return `none` (Python `None`) when a date fails to parse or the
difference is not positive, otherwise the catalog rate (0 for an unknown room
type) times the number of days.
-/
def calculate_price (check_in check_out room_type : String) : Option Int :=
  match parseDate check_in, parseDate check_out with
  | some din, some dout =>
    if toOrdinal dout - toOrdinal din ≤ 0 then none
    else some (dictGetD ROOM_PRICES room_type 0 * (toOrdinal dout - toOrdinal din))
  | _, _ => none

/-- Exactly ten ASCII digits (`\d` of the phone pattern, ASCII model). -/
def tenDigits (l : List Char) : Bool :=
  l.length == 10 && allDigits l

/-- The body of the phone pattern: an optional leading `'+'` then `\d` ten times. -/
def phoneCore : List Char → Bool
  | [] => false
  | c :: rest => if c = '+' then tenDigits rest else tenDigits (c :: rest)

/-- Does the character list end with a newline. -/
def endsWithNewline (l : List Char) : Bool :=
  l.getLast? == some '\n'

/--
`is_valid_phone` from the source: an empty-after-strip phone passes, otherwise
the original string must match the regex pattern with an optional plus sign,
ten digits and an end anchor. Python's end anchor in that pattern also matches
just before a single newline that terminates the string, so a phone carrying
one trailing `'\n'` after the digits is accepted as well.
-/
def is_valid_phone (phone : String) : Bool :=
  if pyStrip phone = "" then true
  else phoneCore phone.data
    || (endsWithNewline phone.data && phoneCore phone.data.dropLast)

/--
The phone shape in the specification's words: an optional leading `'+'`
followed by exactly ten digits, nothing else.
-/
def phoneSpec (phone : String) : Prop :=
  ∃ core : List Char, core.length = 10 ∧ core.all Char.isDigit = true ∧
    (phone.data = core ∨ phone.data = '+' :: core)

/--
The phone shape the source actually accepts for a non-blank phone: the
specification's shape, possibly followed by one final newline (which the
pattern's end anchor tolerates).
-/
def phoneSpecNL (phone : String) : Prop :=
  ∃ core : List Char, core.length = 10 ∧ core.all Char.isDigit = true ∧
    (phone.data = core ∨ phone.data = '+' :: core ∨
     phone.data = core ++ ['\n'] ∨ phone.data = '+' :: (core ++ ['\n']))

/--
Results of parsing a Python float literal: `fin n e` records the exact
decimal value `n · 10^e` that the literal denotes; `inf`, `ninf` and `nan`
are the non-finite parse results. CPython rounds the decimal value to an
IEEE binary64 double; that rounding is applied in `priceNonPositive`, the
one place the program consumes the value.
-/
inductive PyF where
  | fin (num : Int) (exp : Int)
  | inf
  | ninf
  | nan
deriving DecidableEq

/-- Continue a digit run in which underscores may stand between digits. -/
def digitsAfter : List Char → (List Char × List Char)
  | [] => ([], [])
  | c :: t =>
    if c.isDigit then
      let p := digitsAfter t
      (c :: p.1, p.2)
    else if c = '_' then
      match t with
      | d :: t2 =>
        if d.isDigit then
          let p := digitsAfter t2
          (d :: p.1, p.2)
        else ([], c :: t)
      | [] => ([], [c])
    else ([], c :: t)

/-- A digit run that must start with a digit; returns digits and the rest. -/
def digitsRun : List Char → (List Char × List Char)
  | [] => ([], [])
  | c :: t =>
    if c.isDigit then
      let p := digitsAfter t
      (c :: p.1, p.2)
    else ([], c :: t)

/-- Exponent part of a float literal: optional sign then digits, consuming all. -/
def parseExpPart (l : List Char) : Option Int :=
  let core : List Char → Int → Option Int := fun r sgn =>
    let p := digitsRun r
    if p.1 ≠ [] ∧ p.2 = [] then some (sgn * (natOfDigits p.1 : Int)) else none
  match l with
  | '+' :: r => core r 1
  | '-' :: r => core r (-1)
  | r => core r 1

/-- Numeric part of a float literal, after the optional sign was removed. -/
def pyFloatCore (l : List Char) : Option PyF :=
  let ip := digitsRun l
  match ip.2 with
  | '.' :: r2 =>
    let fp := digitsRun r2
    if ip.1 = [] ∧ fp.1 = [] then none
    else
      match fp.2 with
      | [] => some (.fin (natOfDigits (ip.1 ++ fp.1) : Int) (-(fp.1.length : Int)))
      | 'e' :: r4 =>
        (parseExpPart r4).map fun e =>
          .fin (natOfDigits (ip.1 ++ fp.1) : Int) (e - (fp.1.length : Int))
      | 'E' :: r4 =>
        (parseExpPart r4).map fun e =>
          .fin (natOfDigits (ip.1 ++ fp.1) : Int) (e - (fp.1.length : Int))
      | _ => none
  | [] => if ip.1 = [] then none else some (.fin (natOfDigits ip.1 : Int) 0)
  | 'e' :: r2 =>
    if ip.1 = [] then none
    else (parseExpPart r2).map fun e => .fin (natOfDigits ip.1 : Int) e
  | 'E' :: r2 =>
    if ip.1 = [] then none
    else (parseExpPart r2).map fun e => .fin (natOfDigits ip.1 : Int) e
  | _ => none

/--
Model of the builtin `float(s)` as called by `validate_inputs`: strip
whitespace, take an optional sign, accept the case-insensitive keywords
`inf`/`infinity`/`nan`, otherwise parse a decimal literal with optional
fraction and exponent (underscores allowed between digits). `none` is the
`ValueError` path.
-/
def pyFloat (s : String) : Option PyF :=
  let l := pyStripList s.data
  let sgn : Int := match l with | '-' :: _ => -1 | _ => 1
  let body : List Char := match l with | '+' :: r => r | '-' :: r => r | r => r
  let lowered := body.map Char.toLower
  if lowered = "inf".data ∨ lowered = "infinity".data then
    some (if sgn = 1 then PyF.inf else PyF.ninf)
  else if lowered = "nan".data then some PyF.nan
  else
    (pyFloatCore body).map fun p =>
      match p with
      | .fin n e => .fin (sgn * n) e
      | x => x

/--
Does the positive decimal value `n · 10^e` round to `0.0` under IEEE binary64
round-to-nearest-even, i.e. underflow: exactly when `n · 10^e ≤ 2^(-1075)`
(half the smallest positive subnormal `2^(-1074)`; the tie rounds to the even
mantissa `0.0`). With `n ≥ 1`, this is impossible for `e ≥ 0`, and for
`e = -(k+1)` it is `n · 2^1075 ≤ 10^(k+1)`.
-/
def underflowsToZero (n : Int) : Int → Bool
  | .ofNat _ => false
  | .negSucc k => decide (n * 2 ^ 1075 ≤ 10 ^ (k + 1))

/--
The test `price <= 0` of `validate_inputs`, on the binary64 double that
CPython's `float` rounds the literal to. A literal with `n ≤ 0` rounds to a
value `≤ 0` (down to `-inf`, or to `-0.0`/`0.0`, all of which compare `<= 0`);
a positive literal compares `<= 0` exactly when it underflows to `0.0`
(rounding cannot otherwise cross zero, and positive overflow gives `inf`).
`nan` comparisons are false in Python, so `nan` passes the check.
-/
def priceNonPositive : PyF → Bool
  | .fin n e => decide (n ≤ 0) || underflowsToZero n e
  | .inf => false
  | .ninf => true
  | .nan => false

/-- Python `"\n".join(errors)`. -/
def joinNL (l : List String) : String :=
  String.intercalate "\n" l

/--
The first five checks of `validate_inputs` (name, phone, room type, check-in
format, check-out format), collected in the source's order.
-/
def phase1Errors (name phone room_type check_in check_out : String) : List String :=
  (if pyStrip name = "" then ["Customer name is required."] else []) ++
  (if is_valid_phone phone then []
   else ["Phone number should be 10 digits (optional + at start)."]) ++
  (if room_type = "" ∨ room_type ∉ ROOM_TYPES then ["Select a valid room type."] else []) ++
  (if is_valid_date check_in then [] else ["Check-in must be in DD-MM-YYYY format."]) ++
  (if is_valid_date check_out then [] else ["Check-out must be in DD-MM-YYYY format."])

/-- The price checks of `validate_inputs` (`float` parse, then positivity). -/
def priceErrors (price_str : String) : List String :=
  match pyFloat price_str with
  | some p => if priceNonPositive p then ["Price must be positive."] else []
  | none => ["Price must be a number."]

/--
The second pass of `validate_inputs`, run on the parsed dates: past check-in,
date ordering, 30-day cap, then the price checks, collected in order.
-/
def phase2Errors (price_str : String) (today din dout : Date) : List String :=
  (if toOrdinal din < toOrdinal today then ["Check-in date cannot be in the past."] else []) ++
  (if toOrdinal dout ≤ toOrdinal din then ["Check-out must be after Check-in."] else []) ++
  (if 30 < toOrdinal dout - toOrdinal din then ["Maximum stay duration is 30 days."] else []) ++
  priceErrors price_str

/--
The error list collected by `validate_inputs`: the early `return` after the
first pass means the second pass runs only when the first produced nothing
(in which case both dates are known to parse; the catch-all branch is
unreachable). `datetime.now().date()` is the explicit `today` parameter.
-/
def validateErrors (name phone room_type check_in check_out price_str : String)
    (today : Date) : List String :=
  if phase1Errors name phone room_type check_in check_out = [] then
    match parseDate check_in, parseDate check_out with
    | some din, some dout => phase2Errors price_str today din dout
    | _, _ => []
  else phase1Errors name phone room_type check_in check_out

/--
`validate_inputs` from the source: `(True, "")` when no check failed,
otherwise `(False, "\n".join(errors))`.
-/
def validate_inputs (name phone room_type check_in check_out price_str : String)
    (today : Date) : Bool × String :=
  if validateErrors name phone room_type check_in check_out price_str today = [] then
    (true, "")
  else
    (false, joinNL (validateErrors name phone room_type check_in check_out price_str today))

/-- The fallback lexicon `positive_words`. -/
def positive_words : List String :=
  ["good", "great", "excellent", "amazing", "wonderful", "fantastic", "nice"]

/-- The fallback lexicon `negative_words`. -/
def negative_words : List String :=
  ["bad", "terrible", "awful", "horrible", "poor", "disappointing"]

/-- Is `n` a prefix of the second list. -/
def isPrefixList : List Char → List Char → Bool
  | [], _ => true
  | _ :: _, [] => false
  | a :: as, b :: bs => a == b && isPrefixList as bs

/-- Python's substring test `n in h`, by scanning every suffix of `h`. -/
def containsSub (n : List Char) : List Char → Bool
  | [] => isPrefixList n []
  | c :: t => isPrefixList n (c :: t) || containsSub n t

/-- Per-character ASCII lowercasing (`str.lower` on the texts concerned). -/
def lowerStr (s : String) : String :=
  String.mk (s.data.map Char.toLower)

/-- How many words of the lexicon occur in the text as substrings. -/
def countContained (words : List String) (text : String) : Nat :=
  List.countP (fun w => containsSub w.data text.data) words

/--
`analyze_sentiment` from the source. The module-level capability check is the
`useVader` parameter and the external analyzer's compound score is the
`compound` parameter; a missing review (`None`) is the `none` argument,
coerced to the empty string as in `(review or "")`.
-/
def analyze_sentiment (useVader : Bool) (compound : String → Rat)
    (review : Option String) : String :=
  let text := pyStrip (review.getD "")
  if text = "" then "Neutral"
  else if useVader then
    if compound text ≥ 5 / 100 then "Positive"
    else if compound text ≤ -(5 / 100) then "Negative"
    else "Neutral"
  else
    let tl := lowerStr text
    if countContained positive_words tl > countContained negative_words tl then "Positive"
    else if countContained negative_words tl > countContained positive_words tl then "Negative"
    else "Neutral"

/-- A one-message conditional block is empty exactly when its condition fails. -/
theorem if_sing_eq_nil {c : Prop} [Decidable c] {x : String} :
    ((if c then [x] else []) = []) ↔ ¬c := by
  split <;> simp [*]

/-- A conditional block guarding success is empty exactly when its condition holds. -/
theorem if_nil_eq_nil {c : Prop} [Decidable c] {x : String} :
    ((if c then [] else [x]) = []) ↔ c := by
  split <;> simp [*]

/-- The first validation pass accepts exactly when its five rules all hold. -/
theorem phase1Errors_eq_nil_iff (name phone room_type check_in check_out : String) :
    phase1Errors name phone room_type check_in check_out = [] ↔
      (pyStrip name ≠ "" ∧ is_valid_phone phone = true ∧
       ¬(room_type = "" ∨ room_type ∉ ROOM_TYPES) ∧
       is_valid_date check_in = true ∧ is_valid_date check_out = true) := by
  simp only [phase1Errors, List.append_eq_nil, if_sing_eq_nil, if_nil_eq_nil,
    Bool.not_eq_true]
  tauto

/-- When the first pass rejects, the collected errors are exactly its errors. -/
theorem validateErrors_of_phase1 {name phone room_type check_in check_out : String}
    (price_str : String) (today : Date)
    (h : phase1Errors name phone room_type check_in check_out ≠ []) :
    validateErrors name phone room_type check_in check_out price_str today
      = phase1Errors name phone room_type check_in check_out := by
  unfold validateErrors
  rw [if_neg h]

/--
C1: `validate` is two-phase. Whenever one of rules 1–5 fails, the result is
`ok=false` with exactly the phase-1 error messages (in the fixed rule order
of `phase1Errors`), and the result does not depend on the price string or on
the current date — rules 6–9 are not evaluated. In particular, an empty name
with phone `"12345"` yields exactly the name error followed by the phone
error.
-/
theorem validate_twoPhase :
    (∀ name phone room_type check_in check_out price_str price_str2 : String,
      ∀ today today2 : Date,
      phase1Errors name phone room_type check_in check_out ≠ [] →
      validate_inputs name phone room_type check_in check_out price_str today
          = (false, joinNL (phase1Errors name phone room_type check_in check_out)) ∧
      validate_inputs name phone room_type check_in check_out price_str today
          = validate_inputs name phone room_type check_in check_out price_str2 today2) ∧
    validate_inputs "" "12345" "Single" "01-01-2030" "02-01-2030" "5000" ⟨2026, 10, 12⟩
      = (false,
         "Customer name is required.\nPhone number should be 10 digits (optional + at start).") := by
  constructor
  · intro name phone room_type ci co p p2 t t2 h
    have e : ∀ ps : String, ∀ td : Date,
        validate_inputs name phone room_type ci co ps td
          = (false, joinNL (phase1Errors name phone room_type ci co)) := by
      intro ps td
      unfold validate_inputs
      rw [validateErrors_of_phase1 ps td h, if_neg h]
    exact ⟨e p t, (e p t).trans (e p2 t2).symm⟩
  · decide

/-- Witness for C1 at a concrete rejected input. -/
theorem validate_twoPhase_witness :
    phase1Errors "" "12345" "Single" "01-01-2030" "02-01-2030" ≠ [] ∧
    validate_inputs "" "12345" "Single" "01-01-2030" "02-01-2030" "7" ⟨2026, 10, 12⟩
        = (false, joinNL (phase1Errors "" "12345" "Single" "01-01-2030" "02-01-2030")) ∧
    validate_inputs "" "12345" "Single" "01-01-2030" "02-01-2030" "7" ⟨2026, 10, 12⟩
        = validate_inputs "" "12345" "Single" "01-01-2030" "02-01-2030" "-1" ⟨2000, 1, 1⟩ :=
  ⟨by decide,
   validate_twoPhase.1 "" "12345" "Single" "01-01-2030" "02-01-2030" "7" "-1"
     ⟨2026, 10, 12⟩ ⟨2000, 1, 1⟩ (by decide)⟩

/--
C2 counterexample: with an empty customer name and `check_out == check_in`
(both dates parse), validation stops after the first pass, so the returned
error output is only the name error and does not include
`"Check-out must be after Check-in."` — the claim's "regardless of whether
the other fields are valid" fails for the name field.
-/
theorem checkout_msg_missing_on_phase1_failure :
    parseDate "01-01-2030" = some ⟨2030, 1, 1⟩ ∧
    validateErrors "" "" "Single" "01-01-2030" "01-01-2030" "5000" ⟨2026, 10, 12⟩
        = ["Customer name is required."] ∧
    "Check-out must be after Check-in." ∉
      validateErrors "" "" "Single" "01-01-2030" "01-01-2030" "5000" ⟨2026, 10, 12⟩ ∧
    validate_inputs "" "" "Single" "01-01-2030" "01-01-2030" "5000" ⟨2026, 10, 12⟩
        = (false, "Customer name is required.") ∧
    containsSub "Check-out must be after Check-in.".data
        "Customer name is required.".data = false := by
  refine ⟨by decide, by decide, by decide, by decide, by decide⟩

/--
C2 amended: for every input on which rules 1–5 pass and whose check-out date
equals its check-in date, the collected errors include
`"Check-out must be after Check-in."`, regardless of the price string and of
the current date.
-/
theorem checkout_equal_checkin_msg :
    ∀ (name phone room_type check_in check_out price_str : String)
      (today din dout : Date),
      phase1Errors name phone room_type check_in check_out = [] →
      parseDate check_in = some din → parseDate check_out = some dout →
      dout = din →
      "Check-out must be after Check-in." ∈
        validateErrors name phone room_type check_in check_out price_str today := by
  intro name phone room_type ci co ps today din dout h1 hci hco heq
  unfold validateErrors
  rw [if_pos h1, hci, hco]
  have hle : toOrdinal dout ≤ toOrdinal din := le_of_eq (congrArg toOrdinal heq)
  simp only [phase2Errors]
  rw [if_pos hle]
  simp

/-- Witness for the amended C2 at a concrete equal-dates input. -/
theorem checkout_equal_checkin_msg_witness :
    phase1Errors "Jane Doe" "" "Single" "05-01-2030" "05-01-2030" = [] ∧
    "Check-out must be after Check-in." ∈
      validateErrors "Jane Doe" "" "Single" "05-01-2030" "05-01-2030" "5000" ⟨2026, 10, 12⟩ :=
  ⟨by decide,
   checkout_equal_checkin_msg "Jane Doe" "" "Single" "05-01-2030" "05-01-2030" "5000"
     ⟨2026, 10, 12⟩ ⟨2030, 1, 5⟩ ⟨2030, 1, 5⟩ (by decide) (by decide) (by decide) rfl⟩

/--
C5: the price calculator returns the `None` sentinel exactly when one of the
dates fails to parse as `DD-MM-YYYY` or the whole-day difference is not
strictly positive; it returns a value (never an exception, which the total
embedding has no path for) in every other case.
-/
theorem price_undeterminable_iff :
    ∀ check_in check_out room_type : String,
      calculate_price check_in check_out room_type = none ↔
        (parseDate check_in = none ∨ parseDate check_out = none ∨
         ∃ din dout, parseDate check_in = some din ∧ parseDate check_out = some dout ∧
           toOrdinal dout - toOrdinal din ≤ 0) := by
  intro ci co room
  cases hci : parseDate ci with
  | none => simp [calculate_price, hci]
  | some din =>
    cases hco : parseDate co with
    | none => simp [calculate_price, hci, hco]
    | some dout =>
      by_cases hd : toOrdinal dout - toOrdinal din ≤ 0 <;>
        simp [calculate_price, hci, hco, hd] <;> omega

/--
C9: the classifier returns `"Neutral"` for a missing review and for every
review that is empty or whitespace-only after stripping, in both modes and
whatever the primary analyzer would score.
-/
theorem classify_empty_neutral :
    ∀ (useVader : Bool) (compound : String → Rat),
      analyze_sentiment useVader compound none = "Neutral" ∧
      (∀ review : String, pyStrip review = "" →
        analyze_sentiment useVader compound (some review) = "Neutral") ∧
      analyze_sentiment useVader compound (some "") = "Neutral" ∧
      analyze_sentiment useVader compound (some "   ") = "Neutral" := by
  intro uv compound
  refine ⟨rfl, ?_, rfl, rfl⟩
  intro review h
  simp [analyze_sentiment, h]

/-- Witness for C9 at a whitespace-only review in primary mode with a positive score. -/
theorem classify_empty_neutral_witness :
    pyStrip "   " = "" ∧
    analyze_sentiment true (fun _ => 1) (some "   ") = "Neutral" :=
  ⟨by decide, (classify_empty_neutral true (fun _ => 1)).2.1 "   " (by decide)⟩

/-- `isPrefixList` recognises exactly the prefixes. -/
theorem isPrefixList_iff (n : List Char) :
    ∀ l, isPrefixList n l = true ↔ ∃ r, l = n ++ r := by
  induction n with
  | nil => intro l; simp [isPrefixList]
  | cons a as ih =>
    intro l
    cases l with
    | nil =>
      simp only [isPrefixList, List.cons_append]
      constructor
      · intro h; cases h
      · rintro ⟨r, hr⟩; cases hr
    | cons b bs =>
      simp only [isPrefixList, Bool.and_eq_true, beq_iff_eq, ih bs, List.cons_append,
        List.cons.injEq]
      constructor
      · rintro ⟨rfl, r, rfl⟩; exact ⟨r, rfl, rfl⟩
      · rintro ⟨r, rfl, rfl⟩; exact ⟨rfl, r, rfl⟩

/-- `containsSub` is Python's substring containment: some split exhibits the needle. -/
theorem containsSub_iff (n : List Char) :
    ∀ h, containsSub n h = true ↔ ∃ p q, h = p ++ n ++ q := by
  intro h
  induction h with
  | nil =>
    simp only [containsSub, isPrefixList_iff]
    constructor
    · rintro ⟨r, hr⟩
      exact ⟨[], r, by simpa using hr⟩
    · rintro ⟨p, q, hpq⟩
      rcases List.append_eq_nil.mp hpq.symm with ⟨hpn, hq⟩
      rcases List.append_eq_nil.mp hpn with ⟨hp, hn⟩
      exact ⟨q, by simp [hn, hq]⟩
  | cons c t ih =>
    simp only [containsSub, Bool.or_eq_true, isPrefixList_iff, ih]
    constructor
    · rintro (⟨r, hr⟩ | ⟨p, q, hpq⟩)
      · exact ⟨[], r, by simpa using hr⟩
      · exact ⟨c :: p, q, by simp [hpq]⟩
    · rintro ⟨p, q, hpq⟩
      cases p with
      | nil => exact Or.inl ⟨q, by simpa using hpq⟩
      | cons x xs =>
        right
        rw [List.cons_append, List.cons_append] at hpq
        rcases List.cons.injEq .. ▸ hpq with h
        exact ⟨xs, q, (List.cons.inj hpq).2⟩

/--
C3: in fallback mode, on a text that is non-empty after stripping, the
classifier lowercases and compares the number of positive lexicon words
contained in the text as substrings (containment characterised by
`containsSub_iff`) with the number of negative ones: strictly more positive
gives `"Positive"`, strictly more negative gives `"Negative"`, a tie gives
`"Neutral"`; the three specification examples and the `"poorly"`/`"poor"`
containment example evaluate accordingly, for any primary-analyzer score.
-/
theorem fallback_sentiment_rules :
    (∀ w t : List Char, containsSub w t = true ↔ ∃ p q, t = p ++ w ++ q) ∧
    (∀ (review : String) (compound : String → Rat),
      pyStrip review ≠ "" →
      ((countContained positive_words (lowerStr (pyStrip review)) >
          countContained negative_words (lowerStr (pyStrip review)) →
        analyze_sentiment false compound (some review) = "Positive") ∧
       (countContained negative_words (lowerStr (pyStrip review)) >
          countContained positive_words (lowerStr (pyStrip review)) →
        analyze_sentiment false compound (some review) = "Negative") ∧
       (countContained positive_words (lowerStr (pyStrip review)) =
          countContained negative_words (lowerStr (pyStrip review)) →
        analyze_sentiment false compound (some review) = "Neutral"))) ∧
    (∀ compound : String → Rat,
      analyze_sentiment false compound
          (some "The room was great and the staff were nice") = "Positive" ∧
      analyze_sentiment false compound (some "Terrible, awful experience") = "Negative" ∧
      analyze_sentiment false compound (some "good but bad") = "Neutral" ∧
      analyze_sentiment false compound (some "poorly") = "Negative") := by
  refine ⟨containsSub_iff, ?_, fun compound => ⟨rfl, rfl, rfl, rfl⟩⟩
  intro review compound h
  have e : analyze_sentiment false compound (some review) =
      (if countContained positive_words (lowerStr (pyStrip review)) >
          countContained negative_words (lowerStr (pyStrip review)) then "Positive"
       else if countContained negative_words (lowerStr (pyStrip review)) >
          countContained positive_words (lowerStr (pyStrip review)) then "Negative"
       else "Neutral") := by
    simp [analyze_sentiment, h]
  refine ⟨fun hgt => ?_, fun hgt => ?_, fun heq => ?_⟩
  · rw [e, if_pos hgt]
  · rw [e, if_neg (by omega), if_pos hgt]
  · rw [e, if_neg (by omega), if_neg (by omega)]

/-- Witness for C3 at the concrete tie example. -/
theorem fallback_sentiment_rules_witness :
    pyStrip "good but bad" ≠ "" ∧
    countContained positive_words (lowerStr (pyStrip "good but bad")) =
      countContained negative_words (lowerStr (pyStrip "good but bad")) ∧
    analyze_sentiment false (fun _ => 0) (some "good but bad") = "Neutral" :=
  ⟨by decide, by decide,
   (fallback_sentiment_rules.2.1 "good but bad" (fun _ => 0) (by decide)).2.2 (by decide)⟩

/-- The dictionary lookup with default 0 is the three-way catalog rate. -/
theorem dictGetD_rooms (room_type : String) :
    dictGetD ROOM_PRICES room_type 0 =
      (if room_type = "Single" then 2000 else if room_type = "Double" then 5000
       else if room_type = "Luxury" then 10000 else 0) := by
  by_cases r1 : room_type = "Single"
  · subst r1; decide
  · by_cases r2 : room_type = "Double"
    · subst r2; decide
    · by_cases r3 : room_type = "Luxury"
      · subst r3; decide
      · have n1 : ¬(("Single" : String) = room_type) := fun hh => r1 hh.symm
        have n2 : ¬(("Double" : String) = room_type) := fun hh => r2 hh.symm
        have n3 : ¬(("Luxury" : String) = room_type) := fun hh => r3 hh.symm
        simp [dictGetD, ROOM_PRICES, n1, n2, n3, r1, r2, r3]

/--
C4: when both dates parse and the day difference is strictly positive, the
computed price is the number of nights times the catalog rate, where the rate
is 2000/5000/10000 for Single/Double/Luxury and 0 for any other room string
(price 0 rather than an error).
-/
theorem price_formula :
    ∀ (check_in check_out room_type : String) (din dout : Date),
      parseDate check_in = some din → parseDate check_out = some dout →
      0 < toOrdinal dout - toOrdinal din →
      calculate_price check_in check_out room_type =
        some ((toOrdinal dout - toOrdinal din) *
          (if room_type = "Single" then 2000 else if room_type = "Double" then 5000
           else if room_type = "Luxury" then 10000 else 0)) := by
  intro ci co room din dout hci hco hpos
  have hd : ¬(toOrdinal dout - toOrdinal din ≤ 0) := by omega
  simp only [calculate_price, hci, hco]
  rw [if_neg hd, dictGetD_rooms, Int.mul_comm]

/-- Witness for C4, including a room string outside the catalog would give rate 0. -/
theorem price_formula_witness :
    parseDate "01-01-2030" = some ⟨2030, 1, 1⟩ ∧
    parseDate "02-01-2030" = some ⟨2030, 1, 2⟩ ∧
    (0 : Int) < toOrdinal ⟨2030, 1, 2⟩ - toOrdinal ⟨2030, 1, 1⟩ ∧
    calculate_price "01-01-2030" "02-01-2030" "Double" =
      some ((toOrdinal ⟨2030, 1, 2⟩ - toOrdinal ⟨2030, 1, 1⟩) *
        (if ("Double" : String) = "Single" then 2000
         else if ("Double" : String) = "Double" then 5000
         else if ("Double" : String) = "Luxury" then 10000 else 0)) :=
  ⟨by decide, by decide, by decide,
   price_formula "01-01-2030" "02-01-2030" "Double" ⟨2030, 1, 1⟩ ⟨2030, 1, 2⟩
     (by decide) (by decide) (by decide)⟩

/-- A string distinct from the block's message is never in the block. -/
theorem not_mem_if_sing {c : Prop} [Decidable c] {x y : String} (hxy : y ≠ x) :
    y ∉ (if c then [x] else []) := by
  split <;> simp [hxy]

/-- The stay-length message never comes from the price checks. -/
theorem maxmsg_not_in_priceErrors (price_str : String) :
    "Maximum stay duration is 30 days." ∉ priceErrors price_str := by
  cases h : pyFloat price_str with
  | none => simp [priceErrors, h]
  | some p =>
    simp only [priceErrors, h]
    split <;> simp

/--
C7: once rules 1–5 pass, a stay strictly longer than 30 days always puts
`"Maximum stay duration is 30 days."` in the collected errors (whatever the
other second-pass checks decide), and a stay of exactly 30 days never does.
-/
theorem max_stay_error :
    ∀ (name phone room_type check_in check_out price_str : String)
      (today din dout : Date),
      phase1Errors name phone room_type check_in check_out = [] →
      parseDate check_in = some din → parseDate check_out = some dout →
      ((30 < toOrdinal dout - toOrdinal din →
        "Maximum stay duration is 30 days." ∈
          validateErrors name phone room_type check_in check_out price_str today) ∧
       (toOrdinal dout - toOrdinal din = 30 →
        "Maximum stay duration is 30 days." ∉
          validateErrors name phone room_type check_in check_out price_str today)) := by
  intro name phone room_type ci co ps today din dout h1 hci hco
  unfold validateErrors
  rw [if_pos h1, hci, hco]
  constructor
  · intro hgt
    simp only [phase2Errors]
    rw [if_pos hgt]
    simp
  · intro heq
    simp only [phase2Errors]
    rw [if_neg (by omega : ¬(30 < toOrdinal dout - toOrdinal din))]
    have hA : "Maximum stay duration is 30 days." ∉
        (if toOrdinal din < toOrdinal today
         then ["Check-in date cannot be in the past."] else []) :=
      not_mem_if_sing (by decide)
    have hB : "Maximum stay duration is 30 days." ∉
        (if toOrdinal dout ≤ toOrdinal din
         then ["Check-out must be after Check-in."] else []) :=
      not_mem_if_sing (by decide)
    simp [List.mem_append, hA, hB, maxmsg_not_in_priceErrors ps]

/-- Witness for C7 at a valid 31-day booking. -/
theorem max_stay_error_witness :
    phase1Errors "Jane Doe" "" "Single" "01-01-2030" "01-02-2030" = [] ∧
    toOrdinal ⟨2030, 2, 1⟩ - toOrdinal ⟨2030, 1, 1⟩ = 31 ∧
    "Maximum stay duration is 30 days." ∈
      validateErrors "Jane Doe" "" "Single" "01-01-2030" "01-02-2030" "5000" ⟨2026, 10, 12⟩ :=
  ⟨by decide, by decide,
   (max_stay_error "Jane Doe" "" "Single" "01-01-2030" "01-02-2030" "5000"
      ⟨2026, 10, 12⟩ ⟨2030, 1, 1⟩ ⟨2030, 2, 1⟩ (by decide) (by decide) (by decide)).1
     (by decide)⟩

/-- `tenDigits` in propositional form. -/
theorem tenDigits_iff (l : List Char) :
    tenDigits l = true ↔ l.length = 10 ∧ l.all Char.isDigit = true := by
  simp [tenDigits, allDigits]

/-- The pattern body matches exactly the specification's phone shapes. -/
theorem phoneCore_iff (l : List Char) :
    phoneCore l = true ↔
      ∃ core : List Char, core.length = 10 ∧ core.all Char.isDigit = true ∧
        (l = core ∨ l = '+' :: core) := by
  cases l with
  | nil =>
    constructor
    · intro h; exact absurd h (by decide)
    · rintro ⟨core, hlen, _, (hc | hc)⟩
      · rw [← hc] at hlen; simp at hlen
      · simp at hc
  | cons c rest =>
    by_cases hc : c = '+'
    · subst hc
      have e : phoneCore ('+' :: rest) = tenDigits rest := by simp [phoneCore]
      rw [e, tenDigits_iff]
      constructor
      · rintro ⟨h1, h2⟩; exact ⟨rest, h1, h2, Or.inr rfl⟩
      · rintro ⟨core, hlen, hdig, (h | h)⟩
        · have hplus : Char.isDigit '+' = false := by decide
          rw [← h, List.all_cons, hplus] at hdig
          simp at hdig
        · obtain ⟨-, rfl⟩ := List.cons.inj h
          exact ⟨hlen, hdig⟩
    · have e : phoneCore (c :: rest) = tenDigits (c :: rest) := by simp [phoneCore, hc]
      rw [e, tenDigits_iff]
      constructor
      · rintro ⟨h1, h2⟩; exact ⟨c :: rest, h1, h2, Or.inl rfl⟩
      · rintro ⟨core, hlen, hdig, (h | h)⟩
        · rw [h]; exact ⟨hlen, hdig⟩
        · exact absurd (List.cons.inj h).1 hc

/-- A list ends with a newline exactly when it is some list plus `'\n'`. -/
theorem endsWithNewline_iff (l : List Char) :
    endsWithNewline l = true ↔ ∃ p : List Char, l = p ++ ['\n'] := by
  cases l using List.reverseRecOn with
  | nil =>
    constructor
    · intro h; exact absurd h (by decide)
    · rintro ⟨p, hp⟩
      exact absurd hp.symm (by simp)
  | append_singleton p a =>
    simp only [endsWithNewline, List.getLast?_concat, beq_iff_eq, Option.some.injEq]
    constructor
    · rintro rfl; exact ⟨p, rfl⟩
    · rintro ⟨q, hq⟩
      have := congrArg List.getLast? hq
      simpa [List.getLast?_concat] using this

/--
C6 counterexample: the phone `"1234567890\n"` is non-blank after stripping and
is accepted by `is_valid_phone` (Python's end anchor matches before a single
final newline), yet it is not an optional `'+'` followed by exactly ten
digits and nothing else, so the claim's characterisation fails.
-/
theorem phone_trailing_newline :
    pyStrip "1234567890\n" ≠ "" ∧
    is_valid_phone "1234567890\n" = true ∧
    ¬ phoneSpec "1234567890\n" := by
  refine ⟨by decide, by decide, ?_⟩
  rintro ⟨core, hlen, hdig, (hcase | hcase)⟩
  · have h11 : ("1234567890\n".data).length = 11 := by decide
    rw [hcase, hlen] at h11
    cases h11
  · have hh : ("1234567890\n".data).head? = some '1' := by decide
    rw [hcase] at hh
    simp [List.head?] at hh

/--
C6 amended: a phone that is empty after stripping always passes; otherwise it
passes exactly when the phone — or the phone with one trailing newline
removed — is an optional `'+'` followed by exactly ten digits.
-/
theorem phone_rule_exact :
    ∀ phone : String,
      is_valid_phone phone = true ↔ (pyStrip phone = "" ∨ phoneSpecNL phone) := by
  intro phone
  unfold is_valid_phone
  by_cases hs : pyStrip phone = ""
  · simp [hs]
  · rw [if_neg hs]
    simp only [phoneSpecNL, Bool.or_eq_true, Bool.and_eq_true, phoneCore_iff,
      endsWithNewline_iff]
    constructor
    · rintro (⟨core, hl, hd, (h | h)⟩ | ⟨⟨p, hp⟩, ⟨core, hl, hd, (h | h)⟩⟩)
      · exact Or.inr ⟨core, hl, hd, Or.inl h⟩
      · exact Or.inr ⟨core, hl, hd, Or.inr (Or.inl h)⟩
      · rw [hp, List.dropLast_concat] at h
        exact Or.inr ⟨core, hl, hd, Or.inr (Or.inr (Or.inl (by rw [hp, h])))⟩
      · rw [hp, List.dropLast_concat] at h
        refine Or.inr ⟨core, hl, hd, Or.inr (Or.inr (Or.inr ?_))⟩
        rw [hp, h, List.cons_append]
    · rintro (h | ⟨core, hl, hd, (h | h | h | h)⟩)
      · exact absurd h hs
      · exact Or.inl ⟨core, hl, hd, Or.inl h⟩
      · exact Or.inl ⟨core, hl, hd, Or.inr h⟩
      · refine Or.inr ⟨⟨core, h⟩, core, hl, hd, Or.inl ?_⟩
        rw [h, List.dropLast_concat]
      · refine Or.inr ⟨⟨'+' :: core, by rw [h, List.cons_append]⟩,
          core, hl, hd, Or.inr ?_⟩
        rw [h, ← List.cons_append]
        exact List.dropLast_concat

/-- The price checks accept exactly the parsable, positive price strings. -/
theorem priceErrors_eq_nil_iff (price_str : String) :
    priceErrors price_str = [] ↔
      ∃ p, pyFloat price_str = some p ∧ priceNonPositive p = false := by
  cases h : pyFloat price_str with
  | none => simp [priceErrors, h]
  | some p =>
    simp only [priceErrors, h, Option.some.injEq]
    constructor
    · intro he
      refine ⟨p, rfl, ?_⟩
      by_contra hb
      rw [if_pos (Bool.not_eq_false _ ▸ hb)] at he
      cases he
    · rintro ⟨q, rfl, hq⟩
      rw [if_neg (by simp [hq])]

/-- The second pass accepts exactly when rules 6–9 all hold. -/
theorem phase2Errors_eq_nil_iff (price_str : String) (today din dout : Date) :
    phase2Errors price_str today din dout = [] ↔
      (toOrdinal today ≤ toOrdinal din ∧ toOrdinal din < toOrdinal dout ∧
       toOrdinal dout - toOrdinal din ≤ 30 ∧
       ∃ p, pyFloat price_str = some p ∧ priceNonPositive p = false) := by
  simp only [phase2Errors, List.append_eq_nil, if_sing_eq_nil, priceErrors_eq_nil_iff,
    not_lt, not_le]
  tauto

/--
C8: the fully valid candidate (name `"Jane Doe"`, blank phone, `"Double"`,
check-in equal to the current date, check-out the next day, price `"5000"`)
is accepted with an empty error string, and in general `validate` returns
`ok=true` with empty output exactly when all nine rules hold, and otherwise
`ok=false` with the collected messages newline-joined.
-/
theorem validate_accepts :
    validate_inputs "Jane Doe" "" "Double" "12-10-2026" "13-10-2026" "5000" ⟨2026, 10, 12⟩
        = (true, "") ∧
    ∀ (name phone room_type check_in check_out price_str : String) (today : Date),
      (validate_inputs name phone room_type check_in check_out price_str today = (true, "") ↔
        (pyStrip name ≠ "" ∧ is_valid_phone phone = true ∧ room_type ∈ ROOM_TYPES ∧
         ∃ din dout, parseDate check_in = some din ∧ parseDate check_out = some dout ∧
           toOrdinal today ≤ toOrdinal din ∧ toOrdinal din < toOrdinal dout ∧
           toOrdinal dout - toOrdinal din ≤ 30 ∧
           ∃ p, pyFloat price_str = some p ∧ priceNonPositive p = false)) ∧
      (validateErrors name phone room_type check_in check_out price_str today ≠ [] →
        validate_inputs name phone room_type check_in check_out price_str today =
          (false, joinNL (validateErrors name phone room_type check_in check_out price_str today))) := by
  have hroom_ne : ∀ r : String, r ∈ ROOM_TYPES → r ≠ "" := by
    intro r hr he
    subst he
    exact absurd hr (by decide)
  have hok : ∀ (name phone room_type ci co ps : String) (today : Date),
      validate_inputs name phone room_type ci co ps today = (true, "") ↔
        validateErrors name phone room_type ci co ps today = [] := by
    intro name phone room_type ci co ps today
    unfold validate_inputs
    split
    · simp [*]
    · rename_i hne
      simp [Prod.ext_iff, hne]
  have herrs : ∀ (name phone room_type ci co ps : String) (today : Date),
      validateErrors name phone room_type ci co ps today = [] ↔
        (pyStrip name ≠ "" ∧ is_valid_phone phone = true ∧ room_type ∈ ROOM_TYPES ∧
         ∃ din dout, parseDate ci = some din ∧ parseDate co = some dout ∧
           toOrdinal today ≤ toOrdinal din ∧ toOrdinal din < toOrdinal dout ∧
           toOrdinal dout - toOrdinal din ≤ 30 ∧
           ∃ p, pyFloat ps = some p ∧ priceNonPositive p = false) := by
    intro name phone room_type ci co ps today
    by_cases h1 : phase1Errors name phone room_type ci co = []
    · unfold validateErrors
      rw [if_pos h1]
      have h5 := (phase1Errors_eq_nil_iff name phone room_type ci co).mp h1
      rcases Option.isSome_iff_exists.mp (by simpa [is_valid_date] using h5.2.2.2.1)
        with ⟨din, hdin⟩
      rcases Option.isSome_iff_exists.mp (by simpa [is_valid_date] using h5.2.2.2.2)
        with ⟨dout, hdout⟩
      have hmatch : (match parseDate ci, parseDate co with
          | some din, some dout => phase2Errors ps today din dout
          | _, _ => ([] : List String)) = phase2Errors ps today din dout := by
        rw [hdin, hdout]
      rw [hmatch, phase2Errors_eq_nil_iff]
      constructor
      · rintro ⟨hA, hB, hC, hp⟩
        have hroom : room_type ∈ ROOM_TYPES := by
          rcases not_or.mp h5.2.2.1 with ⟨_, hnn⟩
          exact of_not_not hnn
        exact ⟨h5.1, h5.2.1, hroom, din, dout, hdin, hdout, hA, hB, hC, hp⟩
      · rintro ⟨_, _, _, din', dout', hdin', hdout', hA, hB, hC, hp⟩
        rw [hdin] at hdin'
        rw [hdout] at hdout'
        obtain rfl := Option.some.inj hdin'
        obtain rfl := Option.some.inj hdout'
        exact ⟨hA, hB, hC, hp⟩
    · unfold validateErrors
      rw [if_neg h1]
      constructor
      · intro h; exact absurd h h1
      · rintro ⟨hname, hphone, hroom, din, dout, hdin, hdout, _⟩
        refine absurd ((phase1Errors_eq_nil_iff name phone room_type ci co).mpr
          ⟨hname, hphone, ?_, by simp [is_valid_date, hdin], by simp [is_valid_date, hdout]⟩) h1
        exact not_or.mpr ⟨hroom_ne room_type hroom, not_not_intro hroom⟩
  refine ⟨by decide, ?_⟩
  intro name phone room_type ci co ps today
  refine ⟨(hok name phone room_type ci co ps today).trans
    (herrs name phone room_type ci co ps today), ?_⟩
  intro hne
  unfold validate_inputs
  rw [if_neg hne]

/-- Witness for C8's conditional part at a concrete rejected input. -/
theorem validate_accepts_witness :
    validateErrors "" "" "Double" "12-10-2026" "13-10-2026" "5000" ⟨2026, 10, 12⟩ ≠ [] ∧
    validate_inputs "" "" "Double" "12-10-2026" "13-10-2026" "5000" ⟨2026, 10, 12⟩ =
      (false, joinNL (validateErrors "" "" "Double" "12-10-2026" "13-10-2026" "5000" ⟨2026, 10, 12⟩)) :=
  ⟨by decide,
   (validate_accepts.2 "" "" "Double" "12-10-2026" "13-10-2026" "5000" ⟨2026, 10, 12⟩).2
     (by decide)⟩

/--
C10: a computed (non-`None`) price is never negative, and it is strictly
positive exactly when the room string is one of the three catalog categories;
the calculator has no stay-length cap: a 1000-night stay is priced as
1000 × rate.
-/
theorem price_invariants :
    (∀ (check_in check_out room_type : String) (n : Int),
      calculate_price check_in check_out room_type = some n →
      0 ≤ n ∧ (0 < n ↔ room_type ∈ ROOM_TYPES)) ∧
    toOrdinal ⟨2027, 9, 28⟩ - toOrdinal ⟨2025, 1, 1⟩ = 1000 ∧
    calculate_price "01-01-2025" "28-09-2027" "Single" = some 2000000 := by
  refine ⟨?_, by decide, by decide⟩
  intro ci co room n h
  simp only [calculate_price] at h
  cases hci : parseDate ci with
  | none => rw [hci] at h; simp at h
  | some din =>
    cases hco : parseDate co with
    | none => rw [hci, hco] at h; simp at h
    | some dout =>
      rw [hci, hco] at h
      have h' : (if toOrdinal dout - toOrdinal din ≤ 0 then none
          else some (dictGetD ROOM_PRICES room 0 * (toOrdinal dout - toOrdinal din)))
            = some n := h
      by_cases hd : toOrdinal dout - toOrdinal din ≤ 0
      · rw [if_pos hd] at h'; cases h'
      · rw [if_neg hd] at h'
        have hn : n = dictGetD ROOM_PRICES room 0 * (toOrdinal dout - toOrdinal din) :=
          (Option.some.inj h').symm
        have hdpos : 0 < toOrdinal dout - toOrdinal din := by omega
        rw [hn, dictGetD_rooms room]
        by_cases r1 : room = "Single"
        · simp [r1, ROOM_TYPES]; omega
        · by_cases r2 : room = "Double"
          · simp [r1, r2, ROOM_TYPES]; omega
          · by_cases r3 : room = "Luxury"
            · simp [r1, r2, r3, ROOM_TYPES]; omega
            · simp [r1, r2, r3, ROOM_TYPES]

/-- Witness for C10 at the concrete 1000-night booking. -/
theorem price_invariants_witness :
    0 ≤ (2000000 : Int) ∧ ((0 : Int) < 2000000 ↔ "Single" ∈ ROOM_TYPES) :=
  price_invariants.1 "01-01-2025" "28-09-2027" "Single" 2000000 (by decide)

end Hotel
